import Mathlib

/-!
Shallow embedding of the remote-pinning orchestration core
(`core/commands/pin/remotepin.go`): the service credential registry, the
filter building for `ls`/`rm`, the bulk-removal gate, the delegate
reconciliation and poll loop of `add`, and the paired item/error drain of
`ls`.  External collaborators (content resolution, config persistence, the
HTTP protocol client transport, the network stack) are passed in as
explicit function parameters of environment records; machine behaviour of
the orchestration logic itself is translated line by line from the source.
-/

namespace RemotePin

/-- Pin request status enum of the protocol client
(`pinclient.Status`): `queued`, `pinning`, `pinned`, `failed`, `unknown`.
Terminal states are `pinned` and `failed`. -/
inductive Status where
  | queued
  | pinning
  | pinned
  | failed
  | unknown
deriving DecidableEq, Repr

/-- Modelled from the spec: the external protocol client's
`Status.String()` used on enum values held in a `PinStatusGetter`; each
enum member renders as its own lowercase token (spec section 3 status
enum). -/
def Status.toStr : Status → String
  | .queued => "queued"
  | .pinning => "pinning"
  | .pinned => "pinned"
  | .failed => "failed"
  | .unknown => "unknown"

/-- The five status tokens of the spec's status enum (spec section 3). -/
def statusEnum : List String :=
  ["queued", "pinning", "pinned", "failed", "unknown"]

/-- Modelled from the spec: canonicalisation performed by the external
protocol client's `Status(raw).String()` on an arbitrary raw token: the
four recognised non-unknown statuses map to themselves, every other string
(including `"unknown"` itself) maps to `"unknown"`.  The source's filter
validation (`lsRemote`, lines 257-267) rejects a token exactly when this
canonical form is `"unknown"`. -/
def statusCanon (raw : String) : String :=
  if raw = "queued" ∨ raw = "pinning" ∨ raw = "pinned" ∨ raw = "failed" then raw
  else "unknown"

/-- A pin status record returned by the protocol client
(`pinclient.PinStatusGetter`): request id, pin name, pin cid, status and
delegate multiaddresses. -/
structure PinStat where
  requestId : String
  name : String
  cid : String
  status : Status
  delegates : List String
deriving DecidableEq, Repr

/-- Output record of the pin commands (`RemotePinOutput`, lines 58-64). -/
structure RemotePinOutput where
  RequestID : String
  Name : String
  Delegates : List String
  Status : String
  Cid : String
deriving DecidableEq, Repr

/-- Conversion from a protocol-client status record to the emitted output
(the literal emitted at lines 149-155 and 213-218). -/
def toOutput (ps : PinStat) : RemotePinOutput :=
  { RequestID := ps.requestId
    Name := ps.name
    Delegates := ps.delegates
    Status := ps.status.toStr
    Cid := ps.cid }

/-- A registry entry (`config.RemotePinService`): name, endpoint URL and
bearer key. -/
structure RemotePinService where
  name : String
  url : String
  key : String
deriving DecidableEq, Repr

/-- The persisted configuration sub-mapping
(`cfg.RemotePinServices.Services`), a possibly-nil Go map from service
name to entry, modelled as an optional association list with unique
keys. -/
structure Config where
  services : Option (List (String × RemotePinService))
deriving DecidableEq, Repr

/-- `getRemotePinService` (lines 497-519): looks a service name up in the
config and returns its `(url, key)`; a nil map or an absent name is the
`service not known` error.  Repo opening and config reading are external
collaborators and are represented by the `Config` argument. -/
def getRemotePinService (cfg : Config) (name : String) :
    Except String (String × String) :=
  match cfg.services with
  | none => .error "service not known"
  | some l =>
    match l.lookup name with
    | none => .error "service not known"
    | some service => .ok (service.url, service.key)

/-- `getRemotePinServiceOrEnv` (lines 486-495): an empty service name is
refused before any lookup; otherwise the registry is consulted and the
client is the resolved `(url, key)` pair. -/
def getRemotePinServiceOrEnv (cfg : Config) (name : String) :
    Except String (String × String) :=
  if name = "" then .error "remote pinning service name not specified"
  else getRemotePinService cfg name

/-- Registry state predicate: whether `name` is present in the (possibly
nil) services map. -/
def serviceRegistered (cfg : Config) (name : String) : Bool :=
  match cfg.services with
  | none => false
  | some l => (l.lookup name).isSome

/-- The `pin remote service add` run function (lines 345-387): each of the
three parameters is required (`Option.none` models the not-found branch);
a name already present is `service already present`; otherwise a nil map
is initialised and the entry inserted.  The returned `Config` is the state
handed to the external `repo.SetConfig` persistence collaborator. -/
def addRemotePinServiceRun (cfg : Config) (name url key : Option String) :
    Except String Config :=
  match name with
  | none => .error "service name not given"
  | some n =>
    match url with
    | none => .error "service url not given"
    | some u =>
      match key with
      | none => .error "service key not given"
      | some k =>
        match cfg.services with
        | some l =>
          if (l.lookup n).isSome then .error "service already present"
          else .ok ⟨some ((n, ⟨n, u, k⟩) :: l)⟩
        | none => .ok ⟨some [(n, ⟨n, u, k⟩)]⟩

/-- Output record of `pin remote service ls` (`PinServiceAndURL`, lines
467-470): only the service name and its URL, never the key. -/
structure PinServiceAndURL where
  Service : String
  URL : String
deriving DecidableEq, Repr

/-- Bytewise-lexicographic comparison on character lists, the order
underlying Go's `<` on strings used by `sortedServiceAndURL.Less`
(line 483). -/
def leAux : List Char → List Char → Bool
  | [], _ => true
  | _ :: _, [] => false
  | a :: as, b :: bs =>
    if a.toNat < b.toNat then true
    else if b.toNat < a.toNat then false
    else leAux as bs

/-- Non-strict string order corresponding to Go's `s[i].Service <
s[j].Service` sort comparator: `strLe a b` iff `¬ (b < a)`. -/
def strLe (a b : String) : Bool := leAux a.data b.data

/-- The `pin remote service ls` run function (lines 434-463): a nil map
emits nothing; otherwise one `(name, URL)` record per map entry is
collected (in the map's arbitrary iteration order, here the list order)
and sorted with `sortedServiceAndURL.Less`, i.e. ascending by service
name. -/
def lsRemotePinServiceRun (cfg : Config) : List PinServiceAndURL :=
  match cfg.services with
  | none => []
  | some l =>
    (l.map (fun e => PinServiceAndURL.mk e.1 e.2.url)).mergeSort
      (fun a b => strLe a.Service b.Service)

/-- The option-derived inputs of a `ls`/`rm` invocation (the `name`,
`cid` and `status` options read by `lsRemote`, lines 243-267). -/
structure LsRequest where
  nameOpt : Option String
  cidsOpt : Option (List String)
  statusOpt : Option (List String)
deriving DecidableEq, Repr

/-- The filter set handed to the protocol client's `Ls` (the `LsOption`
list built by `lsRemote`). -/
structure LsFilters where
  nameFilter : Option String
  cidFilter : Option (List String)
  statusFilter : Option (List String)
deriving DecidableEq, Repr

/-- CID filter parsing of `lsRemote` (lines 246-256): each raw CID is
decoded by the external `cid.Decode` collaborator (`dec`); the first
failure aborts with the `CID ... cannot be parsed` error. -/
def decodeCids (dec : String → Except String String) :
    List String → Except String (List String)
  | [] => .ok []
  | c :: rest =>
    match dec c with
    | .error e => .error ("CID " ++ c ++ " cannot be parsed (" ++ e ++ ")")
    | .ok parsedCID =>
      match decodeCids dec rest with
      | .error e => .error e
      | .ok tail => .ok (parsedCID :: tail)

/-- Status filter validation of `lsRemote` (lines 257-267): a raw token
whose canonical form is `"unknown"` is rejected with `status ... is not
valid`; otherwise the raw tokens are kept in order. -/
def validateStatuses : List String → Except String (List String)
  | [] => .ok []
  | raw :: rest =>
    if statusCanon raw = "unknown" then
      .error ("status " ++ raw ++ " is not valid")
    else
      match validateStatuses rest with
      | .error e => .error e
      | .ok tail => .ok (raw :: tail)

/-- The optional CID filter block of `lsRemote`: absent option adds no
filter, present option decodes every CID. -/
def parseCidFilter (dec : String → Except String String)
    (cidsOpt : Option (List String)) : Except String (Option (List String)) :=
  match cidsOpt with
  | none => .ok none
  | some raws =>
    match decodeCids dec raws with
    | .error e => .error e
    | .ok parsed => .ok (some parsed)

/-- The optional status filter block of `lsRemote`: absent option adds no
filter, present option validates every token. -/
def parseStatusFilter (statusOpt : Option (List String)) :
    Except String (Option (List String)) :=
  match statusOpt with
  | none => .ok none
  | some raws =>
    match validateStatuses raws with
    | .error e => .error e
    | .ok parsed => .ok (some parsed)

/-- `lsRemote` (lines 241-272): builds the filter set from the request
options; the first invalid CID or status token aborts before the protocol
client's `Ls` is invoked (the caller only calls `Ls` on the `.ok`
result). -/
def lsRemote (dec : String → Except String String) (req : LsRequest) :
    Except String LsFilters :=
  match parseCidFilter dec req.cidsOpt with
  | .error e => .error e
  | .ok cidF =>
    match parseStatusFilter req.statusOpt with
    | .error e => .error e
    | .ok stF => .ok ⟨req.nameOpt, cidF, stF⟩

/-- Environment of one `pin remote ls` invocation: the registry state,
the request options, the external CID decoder and the protocol client's
streaming `Ls`, modelled as the drained item stream paired with the
drained error-channel value. -/
structure ListEnv where
  serviceName : String
  cfg : Config
  req : LsRequest
  decodeCid : String → Except String String
  ls : LsFilters → List PinStat × Option String

/-- The `pin remote ls` run function (lines 197-225): resolve the
service, build the filters, relay every streamed record in arrival order,
then return the drained error-channel value (`return <-errCh`): the run
succeeds exactly when the item stream closed and the paired error signal
carried no error. -/
def listRun (env : ListEnv) : Except String (List RemotePinOutput) :=
  match getRemotePinServiceOrEnv env.cfg env.serviceName with
  | .error e => .error e
  | .ok _ =>
    match lsRemote env.decodeCid env.req with
    | .error e => .error e
    | .ok fl =>
      let outs := ((env.ls fl).1).map toOutput
      match (env.ls fl).2 with
      | some e => .error e
      | none => .ok outs

/-- The deletion loop of `pin remote rm` (lines 322-326): ids are deleted
in order; the first failing `DeleteByID` aborts with the `removing pin
with request ID ...` error.  The second component records the ids for
which a deletion call was issued (the failing one included). -/
def runDeletions (del : String → Except String Unit) :
    List String → Except String Unit × List String
  | [] => (.ok (), [])
  | i :: rest =>
    match del i with
    | .error e =>
      (.error ("removing pin with request ID " ++ i ++ " (" ++ e ++ ")"), [i])
    | .ok _ =>
      match runDeletions del rest with
      | (r, ds) => (r, i :: ds)

/-- Environment of one `pin remote rm` invocation: registry state,
explicit arguments, filter options, force flag, external CID decoder,
the protocol client's `Ls` (for filter-derived targets) and its
`DeleteByID`. -/
structure RmEnv where
  serviceName : String
  cfg : Config
  arguments : List String
  req : LsRequest
  force : Bool
  decodeCid : String → Except String String
  ls : LsFilters → List PinStat × Option String
  deleteByID : String → Except String Unit

/-- The `pin remote rm` run function (lines 293-328): with no explicit
arguments the target ids are derived from the filtered listing, the
error channel is drained, and a non-empty target set without `--force`
is refused (`len(rmIDs) > 0 && !force`); with explicit arguments only
`req.Arguments[0]` is taken.  The result pairs the run outcome with the
ids for which a deletion was issued. -/
def rmRun (env : RmEnv) : Except String Unit × List String :=
  match getRemotePinServiceOrEnv env.cfg env.serviceName with
  | .error e => (.error e, [])
  | .ok _ =>
    match env.arguments with
    | [] =>
      match lsRemote env.decodeCid env.req with
      | .error e => (.error e, [])
      | .ok fl =>
        let rmIDs := ((env.ls fl).1).map PinStat.requestId
        match (env.ls fl).2 with
        | some e => (.error ("listing remote pin IDs (" ++ e ++ ")"), [])
        | none =>
          if decide (rmIDs.length > 0) && !env.force then
            (.error "multiple pins may be removed, use --force", [])
          else runDeletions env.deleteByID rmIDs
    | a :: _ => runDeletions env.deleteByID [a]

/-- Delegate reconciliation of `pin remote add` (lines 116-125): each
delegate multiaddress is converted to peer address info by the external
`peer.AddrInfoFromP2pAddr` (`parseAddr`); a conversion failure aborts
the run (`return err`), whereas the subsequent `Swarm().Connect` result
is only logged and its outcome discarded. -/
def connectDelegates (parseAddr : String → Except String String)
    (connect : String → Except String Unit) : List String → Except String Unit
  | [] => .ok ()
  | d :: rest =>
    match parseAddr d with
    | .error e => .error e
    | .ok p =>
      let _logged := connect p
      connectDelegates parseAddr connect rest

/-- The synchronous wait loop of `pin remote add` (lines 128-146) run
against a trace of successive `GetStatusByID` results: a query error is
fatal, `pinned` breaks out with the record, `failed` is the `failed to
pin` error, and otherwise the timer/cancellation select runs
(`cancelAt n` tells whether `ctx.Done` fires before poll `n + 1`) and the
loop continues.  `none` means the trace ended with the loop still
waiting (the loop is unbounded by design). -/
def pollLoop (cancelAt : Nat → Bool) :
    Nat → List (Except String PinStat) → Option (Except String PinStat)
  | _, [] => none
  | n, r :: rest =>
    match r with
    | .error e => some (.error ("failed to query pin (" ++ e ++ ")"))
    | .ok ps =>
      if ps.status = Status.pinned then some (.ok ps)
      else if ps.status = Status.failed then some (.error "failed to pin")
      else if cancelAt n then some (.error "waiting for pin interrupted")
      else pollLoop cancelAt (n + 1) rest

/-- Environment of one `pin remote add` invocation: registry state,
arguments and options, the external path resolver, the protocol client's
`Add` and the `GetStatusByID` trace, the external multiaddress parser and
network stack connect, and the cancellation schedule of the wait loop. -/
structure AddEnv where
  serviceName : String
  cfg : Config
  arguments : List String
  nameOpt : Option String
  background : Bool
  resolvePath : String → Except String String
  add : String → Option String → Except String PinStat
  parseAddr : String → Except String String
  connect : String → Except String Unit
  cancelAt : Nat → Bool
  statusTrace : List (Except String PinStat)

/-- The tail of the `add` run after delegate reconciliation (lines
127-155): background mode emits the submission record immediately;
synchronous mode runs the wait loop and emits the final observed record
on success.  `none` means the synchronous wait is still looping when the
modelled trace ends. -/
def afterDelegates (env : AddEnv) (ps : PinStat) :
    Option (Except String RemotePinOutput) :=
  if env.background then some (.ok (toOutput ps))
  else
    match pollLoop env.cancelAt 0 env.statusTrace with
    | none => none
    | some (.error e) => some (.error e)
    | some (.ok ps2) => some (.ok (toOutput ps2))

/-- The `pin remote add` run function (lines 83-156): exactly one path
argument, external path resolution, service resolution, protocol-client
submission, delegate reconciliation, then `afterDelegates`. -/
def addRun (env : AddEnv) : Option (Except String RemotePinOutput) :=
  if env.arguments.length ≠ 1 then some (.error "expecting one CID argument")
  else
    match env.resolvePath env.arguments.headI with
    | .error e => some (.error e)
    | .ok c =>
      match getRemotePinServiceOrEnv env.cfg env.serviceName with
      | .error e => some (.error e)
      | .ok _ =>
        match env.add c env.nameOpt with
        | .error e => some (.error e)
        | .ok ps =>
          match connectDelegates env.parseAddr env.connect ps.delegates with
          | .error e => some (.error e)
          | .ok _ => afterDelegates env ps

/-! ### Helper lemmas -/

theorem leAux_total : ∀ as bs, (leAux as bs || leAux bs as) = true := by
  intro as
  induction as with
  | nil => intro bs; cases bs <;> simp [leAux]
  | cons a as ih =>
    intro bs
    cases bs with
    | nil => simp [leAux]
    | cons b bs =>
      simp only [leAux]
      rcases Nat.lt_trichotomy a.toNat b.toNat with h | h | h
      · simp [h]
      · simp [h, Nat.lt_irrefl, ih bs]
      · simp [h, Nat.lt_asymm h]

theorem leAux_trans :
    ∀ as bs cs, leAux as bs = true → leAux bs cs = true → leAux as cs = true := by
  intro as
  induction as with
  | nil => intro bs cs _ _; cases cs <;> simp [leAux]
  | cons a as ih =>
    intro bs cs h1 h2
    cases bs with
    | nil => simp [leAux] at h1
    | cons b bs =>
      cases cs with
      | nil => simp [leAux] at h2
      | cons c cs =>
        simp only [leAux] at h1 h2 ⊢
        rcases Nat.lt_trichotomy a.toNat b.toNat with hab | hab | hab
        · rcases Nat.lt_trichotomy b.toNat c.toNat with hbc | hbc | hbc
          · simp [Nat.lt_trans hab hbc]
          · simp [hbc ▸ hab]
          · simp [Nat.lt_asymm hbc, hbc] at h2
        · rcases Nat.lt_trichotomy b.toNat c.toNat with hbc | hbc | hbc
          · simp [hab ▸ hbc]
          · simp [hab, hbc, Nat.lt_irrefl] at h1 h2 ⊢
            exact ih bs cs h1 h2
          · simp [Nat.lt_asymm hbc, hbc] at h2
        · simp [Nat.lt_asymm hab, hab] at h1

theorem strLe_total (a b : String) : (strLe a b || strLe b a) = true :=
  leAux_total a.data b.data

theorem strLe_trans (a b c : String) (h1 : strLe a b = true)
    (h2 : strLe b c = true) : strLe a c = true :=
  leAux_trans a.data b.data c.data h1 h2

/-! ### Concrete fixtures -/

/-- A registry holding the single service `srv` with URL `u` and key
`k`. -/
def cfgEx : Config := ⟨some [("srv", ⟨"srv", "u", "k"⟩)]⟩

/-- A request with no name, CID or status filter. -/
def emptyReq : LsRequest := ⟨none, none, none⟩

/-- A pinned record with request id `id-1`. -/
def psEx : PinStat := ⟨"id-1", "p", "c", Status.pinned, []⟩

/-- `rm` environment: no explicit arguments, force unset, the filtered
listing yields exactly one match and the error channel is clean. -/
def envC2cx : RmEnv :=
  ⟨"srv", cfgEx, [], emptyReq, false, fun c => .ok c,
    fun _ => ([psEx], none), fun _ => .ok ()⟩

/-- `rm` environment: two explicit request-id arguments, every deletion
succeeding. -/
def envC3 : RmEnv :=
  ⟨"srv", cfgEx, ["id-a", "id-b"], emptyReq, true, fun c => .ok c,
    fun _ => ([], none), fun _ => .ok ()⟩

/-- `rm` environment: no explicit arguments, force unset, the filtered
listing yields zero matches and the error channel is clean. -/
def envC9 : RmEnv :=
  ⟨"srv", cfgEx, [], emptyReq, false, fun c => .ok c,
    fun _ => ([], none), fun _ => .ok ()⟩

/-! ### Claims about the service registry -/

/-- C1: adding a fresh service credential and then resolving the service
by its name yields exactly the `(url, key)` pair that was added. -/
theorem service_add_resolve (cfg : Config) (n u k : String)
    (h : serviceRegistered cfg n = false) :
    ∃ cfg2, addRemotePinServiceRun cfg (some n) (some u) (some k) = .ok cfg2 ∧
      getRemotePinService cfg2 n = .ok (u, k) := by
  cases hs : cfg.services with
  | none =>
    refine ⟨⟨some [(n, ⟨n, u, k⟩)]⟩, ?_, ?_⟩
    · simp [addRemotePinServiceRun, hs]
    · simp [getRemotePinService, List.lookup]
  | some l =>
    cases hlk : l.lookup n with
    | some s => simp [serviceRegistered, hs, hlk] at h
    | none =>
      refine ⟨⟨some ((n, ⟨n, u, k⟩) :: l)⟩, ?_, ?_⟩
      · simp [addRemotePinServiceRun, hs, hlk]
      · simp [getRemotePinService, List.lookup]

/-- Witness for C1 at a concrete fresh registry. -/
theorem service_add_resolve_witness :
    ∃ cfg2,
      addRemotePinServiceRun ⟨none⟩ (some "srv") (some "https://pin.example")
          (some "secret") = .ok cfg2 ∧
        getRemotePinService cfg2 "srv" = .ok ("https://pin.example", "secret") :=
  service_add_resolve ⟨none⟩ "srv" "https://pin.example" "secret" rfl

/-- C7: for every registry state and map iteration order, `service ls`
emits the `(name, url)` projection of every registered service exactly
once, sorted ascending by name; no emitted record carries the key. -/
theorem service_ls_sorted_complete (cfg : Config) :
    (lsRemotePinServiceRun cfg).Pairwise
        (fun a b => strLe a.Service b.Service = true) ∧
      (lsRemotePinServiceRun cfg).Perm
        ((cfg.services.getD []).map (fun e => PinServiceAndURL.mk e.1 e.2.url)) := by
  cases hs : cfg.services with
  | none => simp [lsRemotePinServiceRun, hs]
  | some l =>
    constructor
    · have hp := @List.sorted_mergeSort PinServiceAndURL
        (fun a b => strLe a.Service b.Service)
        (fun a b c h1 h2 => strLe_trans a.Service b.Service c.Service h1 h2)
        (fun a b => strLe_total a.Service b.Service)
        (l.map (fun e => PinServiceAndURL.mk e.1 e.2.url))
      simpa [lsRemotePinServiceRun, hs] using hp
    · have hp := List.mergeSort_perm
        (l.map (fun e => PinServiceAndURL.mk e.1 e.2.url))
        (fun a b => strLe a.Service b.Service)
      simpa [lsRemotePinServiceRun, hs] using hp

/-! ### Claims about the remove orchestrator -/

/-- Counterexample to C2 as stated: with no explicit ids, force unset and
a filter-derived listing of exactly one match (not more than one), the
run is already refused with the force-gate error and issues zero
deletions. -/
theorem rm_single_match_refused :
    rmRun envC2cx = (.error "multiple pins may be removed, use --force", []) ∧
      ((envC2cx.ls ⟨none, none, none⟩).1).length = 1 ∧ ¬ (1 > 1) :=
  ⟨rfl, rfl, by decide⟩

/-- C2 amended: with no explicit ids and force unset, the run is refused
with the force-gate error iff the filter-derived listing yields at least
one match, and zero deletions are issued either way. -/
theorem rm_filter_gate (env : RmEnv) (uk : String × String) (fl : LsFilters)
    (hargs : env.arguments = [])
    (hsvc : getRemotePinServiceOrEnv env.cfg env.serviceName = .ok uk)
    (hfl : lsRemote env.decodeCid env.req = .ok fl)
    (herr : (env.ls fl).2 = none)
    (hforce : env.force = false) :
    (rmRun env).2 = [] ∧
      ((rmRun env).1 = .error "multiple pins may be removed, use --force" ↔
        (env.ls fl).1 ≠ []) := by
  cases hitems : (env.ls fl).1 with
  | nil => simp [rmRun, hargs, hsvc, hfl, herr, hforce, hitems, runDeletions]
  | cons x xs => simp [rmRun, hargs, hsvc, hfl, herr, hforce, hitems]

/-- Witness for the amended C2 at the one-match fixture. -/
theorem rm_filter_gate_witness :
    (rmRun envC2cx).2 = [] ∧
      ((rmRun envC2cx).1 = .error "multiple pins may be removed, use --force" ↔
        (envC2cx.ls ⟨none, none, none⟩).1 ≠ []) :=
  rm_filter_gate envC2cx ("u", "k") ⟨none, none, none⟩ rfl rfl rfl rfl rfl

/-- C3, behaviour at the failing input: with the two explicit request ids
`id-a` and `id-b` and every deletion succeeding, the run succeeds having
issued a deletion only for `id-a`; the second id is silently ignored even
though the argument is declared variadic. -/
theorem rm_explicit_ids_only_first :
    envC3.arguments = ["id-a", "id-b"] ∧ rmRun envC3 = (.ok (), ["id-a"]) :=
  ⟨rfl, rfl⟩

/-- C9: with no explicit ids, a filter-derived listing with zero matches
and a clean error channel, the run succeeds with zero deletions, whatever
the force flag. -/
theorem rm_empty_listing_ok (env : RmEnv) (uk : String × String)
    (fl : LsFilters)
    (hargs : env.arguments = [])
    (hsvc : getRemotePinServiceOrEnv env.cfg env.serviceName = .ok uk)
    (hfl : lsRemote env.decodeCid env.req = .ok fl)
    (hls : env.ls fl = ([], none)) :
    rmRun env = (.ok (), []) := by
  simp [rmRun, hargs, hsvc, hfl, hls, runDeletions]

/-- Witness for C9 at the zero-match fixture. -/
theorem rm_empty_listing_ok_witness : rmRun envC9 = (.ok (), []) :=
  rm_empty_listing_ok envC9 ("u", "k") ⟨none, none, none⟩ rfl rfl rfl rfl

/-! ### Claims about the add orchestrator -/

theorem connectDelegates_irrel (p : String → Except String String)
    (c1 c2 : String → Except String Unit) :
    ∀ ds, connectDelegates p c1 ds = connectDelegates p c2 ds := by
  intro ds
  induction ds with
  | nil => rfl
  | cons d rest ih =>
    cases hp : p d with
    | error e => simp [connectDelegates, hp]
    | ok q => simp [connectDelegates, hp, ih]

/-- Submission record carrying one (unparsable) delegate address. -/
def envC4 : AddEnv :=
  ⟨"srv", cfgEx, ["/ipfs/x"], none, true, fun _ => .ok "cid1",
    fun c _ => .ok ⟨"rid", "nm", c, Status.queued, ["badaddr"]⟩,
    fun _ => .error "invalid p2p multiaddr", fun _ => .ok (),
    fun _ => false, []⟩

/-- Counterexample to C4 as stated: with one delegate address whose
conversion to peer info fails, the whole add run fails with that error,
although the identical run with a succeeding conversion emits a success
record. -/
theorem add_delegate_parse_failure_fatal :
    addRun envC4 = some (.error "invalid p2p multiaddr") ∧
      addRun { envC4 with parseAddr := fun a => .ok a } =
        some (.ok ⟨"rid", "nm", ["badaddr"], "queued", "cid1"⟩) :=
  ⟨rfl, rfl⟩

/-- C4 amended: the outcome of a delegate `Connect` attempt never
influences the result of the add run (connection failures are logged
only); only the address-info conversion step can abort it. -/
theorem add_connect_outcome_irrelevant (env : AddEnv)
    (c1 c2 : String → Except String Unit) :
    addRun { env with connect := c1 } = addRun { env with connect := c2 } := by
  obtain ⟨sn, cfg, args, no, bg, rp, ad, pa, co, ca, st⟩ := env
  simp only [addRun]
  split
  · rfl
  · split
    · rfl
    · split
      · rfl
      · split
        · rfl
        · rw [connectDelegates_irrel pa c1 c2]
          rfl

theorem pollLoop_ok_pinned (cancelAt : Nat → Bool) :
    ∀ (n : Nat) (trace : List (Except String PinStat)) (ps : PinStat),
      pollLoop cancelAt n trace = some (.ok ps) → ps.status = Status.pinned := by
  intro n trace
  induction trace generalizing n with
  | nil => intro ps h; simp [pollLoop] at h
  | cons r rest ih =>
    intro ps h
    cases r with
    | error e => simp [pollLoop] at h
    | ok q =>
      simp only [pollLoop] at h
      split at h
      · rename_i hq
        obtain rfl : q = ps := by simpa using h
        exact hq
      · split at h
        · simp at h
        · split at h
          · simp at h
          · exact ih (n + 1) ps h

theorem pollLoop_failed_fatal (cancelAt : Nat → Bool) (n : Nat) (ps : PinStat)
    (rest : List (Except String PinStat)) (h : ps.status = Status.failed) :
    pollLoop cancelAt n (.ok ps :: rest) = some (.error "failed to pin") := by
  simp [pollLoop, h]

theorem addRun_sync_ok_status (env : AddEnv) (out : RemotePinOutput)
    (hbg : env.background = false)
    (h : addRun env = some (.ok out)) : out.Status = "pinned" := by
  simp only [addRun] at h
  split at h
  · simp at h
  · split at h
    · simp at h
    · split at h
      · simp at h
      · split at h
        · simp at h
        · split at h
          · simp at h
          · simp only [afterDelegates, hbg] at h
            rw [if_neg (by simp)] at h
            split at h
            · simp at h
            · simp at h
            · rename_i ps2 hpoll
              have hpin :=
                pollLoop_ok_pinned env.cancelAt 0 env.statusTrace ps2 hpoll
              obtain rfl : out = toOutput ps2 := by simpa using h.symm
              simp [toOutput, hpin, Status.toStr]

/-- C5: the synchronous wait loop yields a success record only with
status `pinned` (hence never for a non-terminal status), an observed
`failed` status is the fatal `failed to pin` error, and a synchronous add
run that emits a success record emits it with status `pinned`. -/
theorem add_sync_terminal_only :
    (∀ (cancelAt : Nat → Bool) (n : Nat) (trace : List (Except String PinStat))
        (ps : PinStat), pollLoop cancelAt n trace = some (.ok ps) →
          ps.status = Status.pinned) ∧
      (∀ (cancelAt : Nat → Bool) (n : Nat) (ps : PinStat)
          (rest : List (Except String PinStat)), ps.status = Status.failed →
            pollLoop cancelAt n (.ok ps :: rest) =
              some (.error "failed to pin")) ∧
      (∀ (env : AddEnv) (out : RemotePinOutput), env.background = false →
        addRun env = some (.ok out) → out.Status = "pinned") :=
  ⟨pollLoop_ok_pinned,
    fun cA n ps rest h => pollLoop_failed_fatal cA n ps rest h,
    fun env out hbg h => addRun_sync_ok_status env out hbg h⟩

/-- A queued record polled before the pinned one. -/
def psQEx : PinStat := ⟨"id-1", "p", "c", Status.queued, []⟩

/-- A failed record. -/
def psFEx : PinStat := ⟨"id-2", "p", "c", Status.failed, []⟩

/-- Witness for C5 on the trace `queued, pinned` and on an immediately
failed poll. -/
theorem add_sync_terminal_only_witness :
    psEx.status = Status.pinned ∧
      pollLoop (fun _ => false) 0 [.ok psFEx] = some (.error "failed to pin") :=
  ⟨add_sync_terminal_only.1 (fun _ => false) 0 [.ok psQEx, .ok psEx] psEx rfl,
    add_sync_terminal_only.2.1 (fun _ => false) 0 psFEx [] rfl⟩

/-! ### Claims about the list orchestrator -/

theorem validateStatuses_ok :
    ∀ toks parsed, validateStatuses toks = .ok parsed →
      parsed = toks ∧ ∀ t ∈ toks, statusCanon t ≠ "unknown" := by
  intro toks
  induction toks with
  | nil =>
    intro parsed h
    simp only [validateStatuses] at h
    obtain rfl : parsed = [] := by simpa using h.symm
    simp
  | cons raw rest ih =>
    intro parsed h
    simp only [validateStatuses] at h
    split at h
    · simp at h
    · rename_i hvalid
      split at h
      · simp at h
      · rename_i tail htail
        obtain rfl : parsed = raw :: tail := by simpa using h.symm
        obtain ⟨rfl, hall⟩ := ih tail htail
        refine ⟨rfl, ?_⟩
        intro t ht
        rcases List.mem_cons.mp ht with rfl | htl
        · exact hvalid
        · exact hall t htl

theorem validateStatuses_error_of_invalid :
    ∀ toks, (∃ t ∈ toks, statusCanon t = "unknown") →
      ∃ t, t ∈ toks ∧ statusCanon t = "unknown" ∧
        validateStatuses toks = .error ("status " ++ t ++ " is not valid") := by
  intro toks
  induction toks with
  | nil => intro h; simp at h
  | cons raw rest ih =>
    intro h
    by_cases hr : statusCanon raw = "unknown"
    · exact ⟨raw, by simp, hr, by simp [validateStatuses, hr]⟩
    · obtain ⟨t, ht, hcanon⟩ := h
      rcases List.mem_cons.mp ht with rfl | htrest
      · exact absurd hcanon hr
      · obtain ⟨t2, ht2, hc2, herr⟩ := ih ⟨t, htrest, hcanon⟩
        exact ⟨t2, List.mem_cons_of_mem _ ht2, hc2,
          by simp [validateStatuses, hr, herr]⟩

theorem statusCanon_of_not_mem (t : String) (h : t ∉ statusEnum) :
    statusCanon t = "unknown" := by
  have hn : ¬ (t = "queued" ∨ t = "pinning" ∨ t = "pinned" ∨ t = "failed") := by
    intro hc
    apply h
    simp only [statusEnum, List.mem_cons]
    tauto
  simp [statusCanon, hn]

theorem lsRemote_invalid_status (dec : String → Except String String)
    (req : LsRequest) (toks : List String)
    (hcid : ∀ raws, req.cidsOpt = some raws →
      ∃ ds, decodeCids dec raws = .ok ds)
    (hst : req.statusOpt = some toks)
    (hbad : ∃ t ∈ toks, t ∉ statusEnum) :
    ∃ t, t ∈ toks ∧ statusCanon t = "unknown" ∧
      lsRemote dec req = .error ("status " ++ t ++ " is not valid") := by
  obtain ⟨t0, ht0, hnc⟩ := hbad
  obtain ⟨t, ht, hc, herr⟩ := validateStatuses_error_of_invalid toks
    ⟨t0, ht0, statusCanon_of_not_mem t0 hnc⟩
  have hpc : ∃ cf, parseCidFilter dec req.cidsOpt = .ok cf := by
    cases hco : req.cidsOpt with
    | none => exact ⟨none, rfl⟩
    | some raws =>
      obtain ⟨ds, hds⟩ := hcid raws hco
      exact ⟨some ds, by simp [parseCidFilter, hds]⟩
  obtain ⟨cf, hcf⟩ := hpc
  exact ⟨t, ht, hc, by simp [lsRemote, hcf, parseStatusFilter, hst, herr]⟩

/-- C6: a list invocation — and likewise a filter-derived rm invocation
with no explicit ids — whose status filter holds a token outside the
status enum is rejected while building the filters, with the `status ...
is not valid` error naming the first rejected token, and the protocol
client's `Ls` has no influence on the outcome (it is never reached); the
refused rm issues zero deletions. -/
theorem ls_invalid_status_rejected :
    (∀ (env : ListEnv) (uk : String × String) (toks : List String),
        getRemotePinServiceOrEnv env.cfg env.serviceName = .ok uk →
        (∀ raws, env.req.cidsOpt = some raws →
          ∃ ds, decodeCids env.decodeCid raws = .ok ds) →
        env.req.statusOpt = some toks →
        (∃ t ∈ toks, t ∉ statusEnum) →
        ∃ t, t ∈ toks ∧ statusCanon t = "unknown" ∧
          ∀ ls2, listRun { env with ls := ls2 } =
            .error ("status " ++ t ++ " is not valid")) ∧
      (∀ (env : RmEnv) (uk : String × String) (toks : List String),
        env.arguments = [] →
        getRemotePinServiceOrEnv env.cfg env.serviceName = .ok uk →
        (∀ raws, env.req.cidsOpt = some raws →
          ∃ ds, decodeCids env.decodeCid raws = .ok ds) →
        env.req.statusOpt = some toks →
        (∃ t ∈ toks, t ∉ statusEnum) →
        ∃ t, t ∈ toks ∧ statusCanon t = "unknown" ∧
          ∀ ls2, rmRun { env with ls := ls2 } =
            (.error ("status " ++ t ++ " is not valid"), [])) := by
  constructor
  · intro env uk toks hsvc hcid hst hbad
    obtain ⟨t, ht, hc, hlsr⟩ :=
      lsRemote_invalid_status env.decodeCid env.req toks hcid hst hbad
    refine ⟨t, ht, hc, ?_⟩
    intro ls2
    simp [listRun, hsvc, hlsr]
  · intro env uk toks hargs hsvc hcid hst hbad
    obtain ⟨t, ht, hc, hlsr⟩ :=
      lsRemote_invalid_status env.decodeCid env.req toks hcid hst hbad
    refine ⟨t, ht, hc, ?_⟩
    intro ls2
    simp [rmRun, hargs, hsvc, hlsr]

/-- A list environment whose status filter holds the token `bogus`. -/
def envC6 : ListEnv :=
  ⟨"srv", cfgEx, ⟨none, none, some ["bogus"]⟩, fun c => .ok c,
    fun _ => ([], none)⟩

/-- An rm environment with no explicit ids whose status filter holds the
token `bogus`. -/
def envC6rm : RmEnv :=
  ⟨"srv", cfgEx, [], ⟨none, none, some ["bogus"]⟩, false, fun c => .ok c,
    fun _ => ([], none), fun _ => .ok ()⟩

/-- Witness for C6 at the `bogus` token, on both the list and the
filter-derived rm invocation. -/
theorem ls_invalid_status_rejected_witness :
    (∃ t, t ∈ ["bogus"] ∧ statusCanon t = "unknown" ∧
      ∀ ls2, listRun { envC6 with ls := ls2 } =
        .error ("status " ++ t ++ " is not valid")) ∧
      (∃ t, t ∈ ["bogus"] ∧ statusCanon t = "unknown" ∧
        ∀ ls2, rmRun { envC6rm with ls := ls2 } =
          (.error ("status " ++ t ++ " is not valid"), [])) :=
  ⟨ls_invalid_status_rejected.1 envC6 ("u", "k") ["bogus"] rfl
      (fun raws h => nomatch h) rfl ⟨"bogus", by decide, by decide⟩,
    ls_invalid_status_rejected.2 envC6rm ("u", "k") ["bogus"] rfl rfl
      (fun raws h => nomatch h) rfl ⟨"bogus", by decide, by decide⟩⟩

/-- C10: `unknown` is a member of the status enum, yet the filter
validation rejects the token `unknown` exactly like an unrecognised one;
a successfully validated status filter therefore never contains
`unknown`, and no request whose status filter mentions `unknown` ever
produces a filter set for the remote listing. -/
theorem unknown_token_unfilterable :
    "unknown" ∈ statusEnum ∧
      (∀ rest, validateStatuses ("unknown" :: rest) =
        .error "status unknown is not valid") ∧
      (∀ toks parsed, validateStatuses toks = .ok parsed →
        "unknown" ∉ parsed) ∧
      (∀ (env : ListEnv) (toks : List String), env.req.statusOpt = some toks →
        "unknown" ∈ toks → ∀ fl, lsRemote env.decodeCid env.req ≠ .ok fl) := by
  refine ⟨by simp [statusEnum], ?_, ?_, ?_⟩
  · intro rest
    simp [validateStatuses, statusCanon]
  · intro toks parsed h hmem
    obtain ⟨rfl, hall⟩ := validateStatuses_ok toks parsed h
    exact hall _ hmem (by simp [statusCanon])
  · intro env toks hst hm fl hok
    simp only [lsRemote] at hok
    split at hok
    · simp at hok
    · split at hok
      · simp at hok
      · rename_i stF hpsf
        rw [hst] at hpsf
        simp only [parseStatusFilter] at hpsf
        split at hpsf
        · simp at hpsf
        · rename_i parsed hv
          obtain ⟨rfl, hall⟩ := validateStatuses_ok toks parsed hv
          exact hall "unknown" hm (by simp [statusCanon])

/-- Witness for C10: the literal `unknown` token is refused, and the
validated filter `[queued]` does not contain `unknown`. -/
theorem unknown_token_unfilterable_witness :
    validateStatuses ["unknown"] = .error "status unknown is not valid" ∧
      "unknown" ∉ (["queued"] : List String) :=
  ⟨unknown_token_unfilterable.2.1 [],
    unknown_token_unfilterable.2.2.1 ["queued"] ["queued"] rfl⟩

/-- C8: once the service is resolved and the filters built, the list run
returns success exactly when the drained error signal of the paired
stream carries no error — also when zero items were emitted; a pending
error is always propagated instead of success. -/
theorem ls_success_iff_error_drained (env : ListEnv) (uk : String × String)
    (fl : LsFilters)
    (hsvc : getRemotePinServiceOrEnv env.cfg env.serviceName = .ok uk)
    (hfl : lsRemote env.decodeCid env.req = .ok fl) :
    (∃ outs, listRun env = .ok outs) ↔ (env.ls fl).2 = none := by
  cases herr : (env.ls fl).2 with
  | none => simp [listRun, hsvc, hfl, herr]
  | some e => simp [listRun, hsvc, hfl, herr]

/-- A list environment with zero streamed items and a pending error. -/
def envC8 : ListEnv :=
  ⟨"srv", cfgEx, emptyReq, fun c => .ok c, fun _ => ([], some "listing failed")⟩

/-- Witness for C8 at the zero-item, pending-error fixture. -/
theorem ls_success_iff_error_drained_witness :
    ((∃ outs, listRun envC8 = .ok outs) ↔
      (envC8.ls ⟨none, none, none⟩).2 = none) :=
  ls_success_iff_error_drained envC8 ("u", "k") ⟨none, none, none⟩ rfl rfl

end RemotePin
